import Mathlib

/-!
Verification development for `argcompgen` (`src/argcompgen/main.py`), a tool
that captures an `argparse.ArgumentParser` from a target Python program and
generates bash / zsh completion scripts from it.

The Python source is shallowly embedded: the parser objects inspected by the
two generators become an inductive data model (`Parser`, `PAction`,
`ArgAction`, ...), the pure text generators `generate_bash_completion` and
`generate_zsh_completion` become recursive Lean functions producing the same
lines, and the stateful loader `load_parser_safely` (which temporarily
replaces `argparse.ArgumentParser.parse_args` and records the captured parser
in a module-level slot) becomes an explicit state-passing function over a
summary of the target program's possible behaviours.

Note on string literals: a literal brace character inside a string is written
with the escapes \x7b and \x7d, and a literal single-quote character is the
string `sq` below; this keeps generated shell text byte-faithful.
-/

namespace Argcompgen

/-- Single-quote character as a string (ASCII 39). -/
def sq : String := String.mk [Char.ofNat 39]

/-- Python `"    " * level` (`indent` local of `generate_bash_completion`). -/
def indentStr : Nat → String
  | 0 => ""
  | n + 1 => "    " ++ indentStr n

/-- Apply `f` to the last element of a list (Python `lines[-1] = f(lines[-1])`). -/
def modifyLast (f : String → String) : List String → List String
  | [] => []
  | [x] => [f x]
  | x :: y :: rest => x :: modifyLast f (y :: rest)

/-- Python `str.rstrip(" \\")`: drop trailing spaces and backslashes. -/
def rstripSpBs (s : String) : String :=
  String.mk ((s.data.reverse.dropWhile (fun c => c = ' ' || c = '\\')).reverse)

/-- If `pat` is a prefix of the second list, return the remaining suffix. -/
def stripPrefixChars : List Char → List Char → Option (List Char)
  | [], s => some s
  | _ :: _, [] => none
  | p :: ps, c :: cs => if p = c then stripPrefixChars ps cs else none

/-- Worker for `pyReplace`; the fuel is always at least the length of the
text, and each step consumes at least one character (the pattern is
nonempty), so the fuel never runs out. -/
def pyReplaceAux (pat rep : List Char) : Nat → List Char → List Char
  | _, [] => []
  | 0, s => s
  | Nat.succ fuel, c :: cs =>
    match stripPrefixChars pat (c :: cs) with
    | some suffix => rep ++ pyReplaceAux pat rep fuel suffix
    | none => c :: pyReplaceAux pat rep fuel cs

/-- Python `s.replace(pat, rep)`: leftmost non-overlapping replacement of all
occurrences. (The source only uses the nonempty patterns `"-"` and `".py"`;
an empty pattern is treated as a no-op here.) -/
def pyReplace (s pat rep : String) : String :=
  match pat.data with
  | [] => s
  | _ :: _ => String.mk (pyReplaceAux pat.data rep.data s.data.length s.data)

/-- Python `os.path.basename`: the part of the path after the last slash. -/
def pyBasename (s : String) : String :=
  String.mk (s.data.foldl (fun acc c => if c = '/' then [] else acc ++ [c]) [])

/-! ## Data model

The structural surface of an `argparse.ArgumentParser` that the two
generators inspect: `_actions` (in insertion order), `_mutually_exclusive_groups`,
and for a `_SubParsersAction` its `choices` (insertion-ordered dict) and
`_choices_actions` (the pseudo-actions carrying `dest`/`help`).
-/

/-- The values of `Action.nargs` distinguished by the source:
`None`, an integer, or `argparse.OPTIONAL` (`'?'`); other markers
(`'*'`, `'+'`, remainder) are collapsed into `otherMark`. -/
inductive NargsV where
  | noneV : NargsV
  | num : Nat → NargsV
  | optionalV : NargsV
  | otherMark : NargsV
deriving DecidableEq

/-- The values of `Action.const` distinguished by the source: `None`, a
boolean (`store_true` / `store_false`), or some other object. -/
inductive ConstV where
  | noneV : ConstV
  | boolV : Bool → ConstV
  | otherV : ConstV
deriving DecidableEq

/-- An ordinary `argparse.Action` as read by the generators. -/
structure ArgAction where
  option_strings : List String
  nargs : NargsV
  const : ConstV
  choices : Option (List String)
  metavar : Option String
  dest : String
  help : Option String
deriving DecidableEq

/-- One entry of `_SubParsersAction._choices_actions`: a pseudo-action with a
`dest` (the subcommand name) and a `help` text. -/
structure ChoiceInfo where
  dest : String
  help : Option String
deriving DecidableEq

mutual
/-- An `argparse.ArgumentParser`: its `prog`, its `_actions` in insertion
order, and its `_mutually_exclusive_groups` (each group's `_group_actions`). -/
inductive Parser where
  | mk : String → PActions → List (List ArgAction) → Parser

/-- The `_actions` list of a parser. -/
inductive PActions where
  | nil : PActions
  | cons : PAction → PActions → PActions

/-- One element of `_actions`: either an ordinary action or a
`_SubParsersAction` (whose `option_strings` is empty) with its `choices`
dict and `_choices_actions` list. -/
inductive PAction where
  | arg : ArgAction → PAction
  | subparsers : SubChoices → List ChoiceInfo → PAction

/-- The `choices` dict of a `_SubParsersAction`, in insertion order. -/
inductive SubChoices where
  | nil : SubChoices
  | cons : String → Parser → SubChoices → SubChoices
end

/-- The `prog` attribute of a parser. -/
def Parser.progName : Parser → String
  | Parser.mk s _ _ => s

/-- The `_actions` list of a parser. -/
def Parser.actions : Parser → PActions
  | Parser.mk _ a _ => a

/-- The `_mutually_exclusive_groups` of a parser, each as its member actions. -/
def Parser.mutexGroups : Parser → List (List ArgAction)
  | Parser.mk _ _ g => g

/-- The names (`choices.keys()`) of a `_SubParsersAction`, in order. -/
def subNamesList : SubChoices → List String
  | SubChoices.nil => []
  | SubChoices.cons n _ rest => n :: subNamesList rest

/-! ## Option collection (lines 55-66 of `main.py`)

For each action with nonempty `option_strings`: `store_true`/`store_false`
actions (`a.nargs in [0, None] and a.const in [True, False]`) extend
`options_flag`; all others extend `options_store`.
-/

/-- The test `a.nargs in [0, None] and a.const in [True, False]`. -/
def isFlagAction (a : ArgAction) : Bool :=
  (a.nargs = NargsV.num 0 || a.nargs = NargsV.noneV) &&
    (a.const = ConstV.boolV true || a.const = ConstV.boolV false)

/-- `options_flag` of the collection loop. A `_SubParsersAction` has empty
`option_strings`, so it contributes nothing. -/
def optionsFlag : PActions → List String
  | PActions.nil => []
  | PActions.cons (PAction.arg a) rest =>
    (if a.option_strings ≠ [] ∧ isFlagAction a then a.option_strings else []) ++ optionsFlag rest
  | PActions.cons (PAction.subparsers _ _) rest => optionsFlag rest

/-- `options_store` of the collection loop. -/
def optionsStore : PActions → List String
  | PActions.nil => []
  | PActions.cons (PAction.arg a) rest =>
    (if a.option_strings ≠ [] ∧ ¬ isFlagAction a then a.option_strings else []) ++ optionsStore rest
  | PActions.cons (PAction.subparsers _ _) rest => optionsStore rest

/-- All declared option spellings, in the declaration (insertion) order of
the `_actions` list. -/
def declaredOptionStrings : PActions → List String
  | PActions.nil => []
  | PActions.cons (PAction.arg a) rest => a.option_strings ++ declaredOptionStrings rest
  | PActions.cons (PAction.subparsers _ _) rest => declaredOptionStrings rest

/-- The first `_SubParsersAction` of the actions list
(`next((a for a in parser._actions if isinstance(a, argparse._SubParsersAction)), None)`). -/
def firstSubChoices : PActions → Option (SubChoices × List ChoiceInfo)
  | PActions.nil => none
  | PActions.cons (PAction.arg _) rest => firstSubChoices rest
  | PActions.cons (PAction.subparsers cs infos) _ => some (cs, infos)

/-! ## Bash generator (`generate_bash_completion`, lines 44-131) -/

/-- The `case` branches, two lines and a `;;` per subcommand
(lines 94-103 of `main.py`). -/
def bashCaseBranches (cs : SubChoices) (ind funcName : String) : List String :=
  match cs with
  | SubChoices.nil => []
  | SubChoices.cons n _ rest =>
    (ind ++ n ++ ")") :: (ind ++ funcName ++ "_" ++ n) :: (ind ++ ";;") ::
      bashCaseBranches rest ind funcName

/-- Assembles the line list of one bash completion function from the
precomputed pieces. `scan` is `none` for a leaf (no `_SubParsersAction`),
otherwise the choices together with the recursively generated nested
function lines (which are emitted before the current function). -/
def bashAssemble (prog funcName : String) (level : Nat) (flags stores : List String)
    (scan : Option (SubChoices × List String)) : List String :=
  let ind := indentStr level
  let header := [funcName ++ "() \x7b",
    ind ++ "local cur prev words cword",
    ind ++ "cur=$\x7bCOMP_WORDS[COMP_CWORD]\x7d",
    ind ++ "prev=$\x7bCOMP_WORDS[COMP_CWORD-1]\x7d",
    ind ++ "COMPREPLY=()"]
  let reg := if level = 0 then ["complete -F " ++ funcName ++ " " ++ prog] else []
  match scan with
  | some (cs, subFuncLines) =>
    subFuncLines ++ header ++
      [ind ++ "local subcmds=" ++ sq ++ String.intercalate " " (subNamesList cs) ++ sq,
       ind ++ "if [ $COMP_CWORD -eq " ++ toString (level + 1) ++ " ]; then",
       ind ++ "    COMPREPLY=( $(compgen -W \"$subcmds " ++ String.intercalate " " flags ++ "\" -- \"$cur\") )",
       ind ++ "    return 0",
       ind ++ "fi",
       ind ++ "case $\x7bCOMP_WORDS[1]\x7d in"] ++
      bashCaseBranches cs ind funcName ++
      [ind ++ "esac", ind ++ "return 0", "\x7d"] ++ reg
  | none =>
    header ++
      [ind ++ "local opts_flag=\"" ++ String.intercalate " " flags ++ "\"",
       ind ++ "for w in \"$\x7bCOMP_WORDS[@]\x7d\"; do",
       ind ++ "    opts_flag=($\x7bopts_flag[@]/$w/\x7d)",
       ind ++ "done",
       ind ++ "local opts_store=\"" ++ String.intercalate " " stores ++ "\"",
       ind ++ "local opts_all=($\x7bopts_flag[@]\x7d $opts_store)",
       ind ++ "local opts_all_str=\"$\x7bopts_all[*]\x7d\"",
       ind ++ "COMPREPLY=( $(compgen -W \"$\x7bopts_all_str\x7d\" -- \"$cur\") )",
       ind ++ "return 0", "\x7d"] ++ reg

mutual
/-- The lines of `generate_bash_completion(parser, prog_name, func_name, level)`.
The Python function returns a newline-joined string; nested functions'
text is prepended (`script = sub_command_func + script`), which on the
line level is the `subFuncLines ++ ...` prefix inside `bashAssemble`. -/
def bashLines (p : Parser) (prog : String) (fn : Option String) (level : Nat) : List String :=
  match p with
  | Parser.mk _ actions _ =>
    let funcName := fn.getD ("_" ++ pyReplace prog "-" "_")
    bashAssemble prog funcName level (optionsFlag actions) (optionsStore actions)
      (bashScan actions prog funcName level)

/-- Walks `_actions` looking for the first `_SubParsersAction`; on success
returns its choices paired with the recursively generated nested function
lines. -/
def bashScan (actions : PActions) (prog funcName : String) (level : Nat) :
    Option (SubChoices × List String) :=
  match actions with
  | PActions.nil => none
  | PActions.cons (PAction.arg _) rest => bashScan rest prog funcName level
  | PActions.cons (PAction.subparsers cs _) _ =>
    some (cs, bashSubFuncLines cs prog funcName level)

/-- The concatenated lines of the recursively generated nested functions,
one `generate_bash_completion(subparser, prog_name, func_name=sub_func,
level=level+1)` call per subcommand, in `choices` order. -/
def bashSubFuncLines (cs : SubChoices) (prog funcName : String) (level : Nat) : List String :=
  match cs with
  | SubChoices.nil => []
  | SubChoices.cons n q rest =>
    bashLines q prog (some (funcName ++ "_" ++ n)) (level + 1) ++
      bashSubFuncLines rest prog funcName level
end

/-- `generate_bash_completion`: the newline-join of the line list. -/
def generate_bash_completion (p : Parser) (prog : String) (fn : Option String := none)
    (level : Nat := 0) : String :=
  String.intercalate "\n" (bashLines p prog fn level)

/-- The word pool of a leaf function's `compgen -W` invocation: the
`opts_flag` words followed by the `opts_store` words, exactly as assembled
into `opts_all` (flag options are additionally filtered at completion time
against already-typed words; the static pool is this list). -/
def bashLeafWords (p : Parser) : List String :=
  optionsFlag p.actions ++ optionsStore p.actions

/-- The word pool offered at cursor position `level+1` when the level has
subcommands: the subcommand names followed by the flag-style options
(`compgen -W "$subcmds ..."`, line 86). -/
def bashSubcmdOfferWords (p : Parser) : List String :=
  match firstSubChoices p.actions with
  | some (cs, _) => subNamesList cs ++ optionsFlag p.actions
  | none => []

/-! ## Zsh generator (`generate_zsh_completion`, lines 134-254) -/

/-- Python `a.help or ''`. -/
def helpOr (h : Option String) : String := h.getD ""

/-- Python `f"...{x}..."` rendering of an optional string (`None` renders as
the text `None`). -/
def pyStrOpt : Option String → String
  | none => "None"
  | some s => s

/-- Python `a.metavar or a.dest` as a truthiness-based choice, used where the
source first tests `if a.metavar or a.dest:` (an empty string is falsy). -/
def firstTruthy (m : Option String) (d : String) : Option String :=
  match m with
  | some s => if s = "" then (if d = "" then none else some d) else some s
  | none => if d = "" then none else some d

/-- Python `a.metavar or a.dest` rendered directly into an f-string (falls
back to `dest` whatever it is). -/
def metavarOrDest (m : Option String) (d : String) : String :=
  match m with
  | some s => if s = "" then d else s
  | none => d

/-- The option-spelling part of a clause: the single spelling, or a
brace-grouped alternation `{s1,s2,...}` when an option has several. -/
def optsRepr (l : List String) : String :=
  if l.length = 1 then l.headD "" else "\x7b" ++ String.intercalate "," l ++ "\x7d"

/-- All option spellings of a mutually-exclusive group's member actions. -/
def groupOpts (g : List ArgAction) : List String :=
  (g.map (fun a => a.option_strings)).flatten

/-- The `_arguments` clause emitted for one member of a mutually exclusive
group: exclusivity marker listing every spelling of the group, then the
member's spelling(s), then its help text (lines 155-162). -/
def zshMutexClause (g : List ArgAction) (a : ArgAction) : String :=
  sq ++ "(" ++ String.intercalate " " (groupOpts g) ++ ")" ++ sq ++
    optsRepr a.option_strings ++ sq ++ "[" ++ helpOr a.help ++ "]" ++ sq

/-- The clauses emitted for one mutually exclusive group: nothing when no
member has an option spelling, otherwise one clause per member that has
option spellings. -/
def zshGroupClauses (g : List ArgAction) : List String :=
  if (groupOpts g).isEmpty then []
  else g.filterMap fun a =>
    if a.option_strings.isEmpty then none else some (zshMutexClause g a)

/-- The clauses of all mutually exclusive groups, in declaration order. -/
def zshMutexClauses (gs : List (List ArgAction)) : List String :=
  (gs.map zshGroupClauses).flatten

/-- The `exclusive_opts` set: every option spelling of every member of a
group whose collected spellings are nonempty. Only membership is ever
queried, so a list represents the Python `set`. -/
def zshExclusiveOpts (gs : List (List ArgAction)) : List String :=
  (gs.map fun g => if (groupOpts g).isEmpty then [] else groupOpts g).flatten

/-- The clause for an ordinary option action (lines 186-200): with a value
slot (`:metavar-or-dest:_files`) when `a.nargs in [argparse.OPTIONAL, None]`
and `a.metavar or a.dest` is truthy, else just spelling and help. -/
def zshOptionClause (a : ArgAction) : String :=
  let opts := optsRepr a.option_strings
  if a.nargs = NargsV.optionalV ∨ a.nargs = NargsV.noneV then
    match firstTruthy a.metavar a.dest with
    | some v => opts ++ sq ++ "[" ++ helpOr a.help ++ "]:" ++ v ++ ":_files" ++ sq
    | none => opts ++ sq ++ "[" ++ helpOr a.help ++ "]" ++ sq
  else opts ++ sq ++ "[" ++ helpOr a.help ++ "]" ++ sq

/-- The clause for a positional action (lines 201-207): fixed position, name,
and either the literal allowed values or `_files`. -/
def zshPositionalClause (a : ArgAction) (pos : Nat) : String :=
  let name := metavarOrDest a.metavar a.dest
  let choise :=
    match a.choices with
    | some l => if l.isEmpty then "_files" else "(" ++ String.intercalate " " l ++ ")"
    | none => "_files"
  sq ++ toString pos ++ ":" ++ name ++ ":" ++ choise ++ sq

/-- One entry of `state_cases`: subcommand name, the recursively generated
nested function's lines, and the subcommand's help text. -/
structure StateCase where
  name : String
  funcLines : List String
  helpText : Option String

/-- Realizes the dict lookups `a.choices[action.dest]` over `_choices_actions`:
`table` holds, for every key of `choices`, the nested function lines
generated for it; each pseudo-action whose `dest` is found contributes one
`state_cases` entry. (In an argparse-built parser every `dest` of
`_choices_actions` is a key of `choices`; a missing key would be a
`KeyError`.) -/
def buildStateCases (infos : List ChoiceInfo) (table : List (String × List String)) :
    List StateCase :=
  infos.filterMap fun info =>
    (List.lookup info.dest table).map fun fl =>
      { name := info.dest, funcLines := fl, helpText := info.help }

/-- The `subcommand=(...)` description list (lines 219-224). -/
def zshSubcommandBlock (cases : List StateCase) : List String :=
  if cases.isEmpty then []
  else ["", "  subcommand=("] ++
    cases.map (fun c => "    " ++ sq ++ c.name ++ ":" ++ pyStrOpt c.helpText ++ sq ++ " \\") ++
    ["  )"]

/-- The `case $state in ... esac` state dispatch (lines 226-241). -/
def zshStateBlock (cases : List StateCase) (prog : String) : List String :=
  if cases.isEmpty then []
  else ["", "  case $state in", "    subcmd)",
        "      _describe " ++ sq ++ sq ++ " subcommand", "      ;;", "    args)",
        "      case $words[1] in"] ++
    (cases.map fun c =>
      ["        " ++ c.name ++ ")", "          _" ++ prog ++ "_" ++ c.name,
       "          ;;"]).flatten ++
    ["      esac", "      ;;", "  esac"]

/-- The body of one zsh completion function before nested functions are
prepended: the function header, the `_arguments -C` call with every clause
indented and backslash-continued (the final clause — always the
`'*:: :->args'` catch-all — has its trailing ` \` stripped,
`lines[-1].rstrip(" \\")`), the `subcommand=(...)` block, the state
dispatch, and the closing brace. `clauses` is the `args_lines` list without
the trailing catch-all. -/
def zshCore (prog : String) (clauses : List String) (scs : List StateCase) : List String :=
  modifyLast rstripSpBs
    (("\n_" ++ prog ++ "() \x7b") :: "  _arguments -C \\" ::
      ((clauses ++ [sq ++ "*:: :->args" ++ sq]).map (fun l => "    " ++ l ++ " \\")))
  ++ zshSubcommandBlock scs ++ zshStateBlock scs prog ++ ["\x7d"]

/-- Assembles the line list of one zsh completion function from the mutex
clauses, the main-loop clauses and the `state_cases`. The nested functions'
lines are prepended one by one (`lines = [sub_func] + lines`), so they end
up in reverse `state_cases` order; the level-0 wrapper adds the `#compdef`
header and the `compdef` footer. -/
def zshAssemble (prog : String) (level : Nat) (mutexLines : List String)
    (loop : List String × List StateCase) : List String :=
  if level = 0 then
    ("#compdef " ++ prog) ::
      loop.2.foldl (fun acc c => c.funcLines ++ acc)
        (zshCore prog (mutexLines ++ loop.1) loop.2) ++
      ["\ncompdef _" ++ prog ++ " " ++ prog]
  else
    loop.2.foldl (fun acc c => c.funcLines ++ acc)
      (zshCore prog (mutexLines ++ loop.1) loop.2)

mutual
/-- The lines of `generate_zsh_completion(parser, prog_name, level)`; when
`prog_name` is `None` the parser's own `prog` is used. -/
def zshLines (p : Parser) (progName : Option String) (level : Nat) : List String :=
  match p with
  | Parser.mk defaultProg actions mgroups =>
    let prog := progName.getD defaultProg
    zshAssemble prog level (zshMutexClauses mgroups)
      (zshActionLoop actions (zshExclusiveOpts mgroups) prog level 1)

/-- The main loop over `_actions` (lines 165-207): skips actions already
covered by a mutually exclusive group, emits the `'1: :->subcmd'` clause and
collects `state_cases` for a `_SubParsersAction` (whose empty
`option_strings` never match `exclusive_opts`), an option clause for actions
with option spellings, and a numbered positional clause otherwise. Returns
the collected `args_lines` additions and `state_cases`. -/
def zshActionLoop (actions : PActions) (excl : List String) (prog : String)
    (level : Nat) (pos : Nat) : List String × List StateCase :=
  match actions with
  | PActions.nil => ([], [])
  | PActions.cons (PAction.arg a) rest =>
    if a.option_strings.any (fun o => excl.contains o) then
      zshActionLoop rest excl prog level pos
    else if a.option_strings.isEmpty then
      let r := zshActionLoop rest excl prog level (pos + 1)
      (zshPositionalClause a pos :: r.1, r.2)
    else
      let r := zshActionLoop rest excl prog level pos
      (zshOptionClause a :: r.1, r.2)
  | PActions.cons (PAction.subparsers cs infos) rest =>
    let table := zshAllSubGens cs prog level
    let r := zshActionLoop rest excl prog level pos
    ((sq ++ "1: :->subcmd" ++ sq) :: r.1, buildStateCases infos table ++ r.2)

/-- Generates, for every key of a `choices` dict, the nested completion
function `generate_zsh_completion(sub_parser, f"{prog_name}_{sub_name}",
level + 1)`; `buildStateCases` then looks entries up by `dest`. -/
def zshAllSubGens (cs : SubChoices) (prog : String) (level : Nat) :
    List (String × List String) :=
  match cs with
  | SubChoices.nil => []
  | SubChoices.cons n q rest =>
    (n, zshLines q (some (prog ++ "_" ++ n)) (level + 1)) :: zshAllSubGens rest prog level
end

/-- `generate_zsh_completion`: the newline-join of the line list. -/
def generate_zsh_completion (p : Parser) (progName : Option String := none)
    (level : Nat := 0) : String :=
  String.intercalate "\n" (zshLines p progName level)

/-! ## Loader (`load_parser_safely`, lines 9-41)

The loader temporarily replaces the class attribute
`argparse.ArgumentParser.parse_args` with a guard, runs the target program's
module-level code via `runpy.run_path`, and restores the attribute in a
`finally` block. The process-wide mutable state it touches — the
`parse_args` attribute slot, the module-level `captured_parser` slot, and
the console — is threaded explicitly as `LState`. A run of the target
program is summarized by `TargetBehavior`: it either runs to completion,
reaches a `parse_args()` call (on which the installed guard fires), raises
a `StopIteration` of its own, raises an ordinary exception (an `Exception`
subclass), or requests a process exit (`sys.exit` / `SystemExit`, which is
not an `Exception` subclass and is therefore not caught by
`except Exception`).
-/

/-- The value held by the `argparse.ArgumentParser.parse_args` attribute
slot: the original bound function, or the loader's `fake_parse_args` guard. -/
inductive ParseArgsAttr where
  | original : ParseArgsAttr
  | fake : ParseArgsAttr
deriving DecidableEq

/-- The process-wide state touched by the loader: the `parse_args` attribute
slot, the module-level `captured_parser` slot, and the messages printed so
far. -/
structure LState where
  attr : ParseArgsAttr
  captured : Option Parser
  printed : List String

/-- An exception escaping the target program's module-level code:
`StopIteration` (the guard's control-flow signal class), an ordinary
`Exception` with a message, or `SystemExit` with an exit code. -/
inductive Exc where
  | stopIteration : Exc
  | error : String → Exc
  | systemExit : Nat → Exc

/-- Summary of one run of the target program's module-level code. -/
inductive TargetBehavior where
  | completes : TargetBehavior
  | callsParseArgs : Parser → TargetBehavior
  | raisesStopIteration : TargetBehavior
  | raisesError : String → TargetBehavior
  | exits : Nat → TargetBehavior

/-- How a `load_parser_safely` call ends: it returns a (possibly absent)
parser, or a `SystemExit` propagates out of it and the process exits with
the given code (this covers both the loader's own `sys.exit(1)` and a
`SystemExit` raised by the target program, which `except Exception` does
not catch). -/
inductive LoadOutcome where
  | returns : Option Parser → LoadOutcome
  | exitsProcess : Nat → LoadOutcome

/-- The message `f"❌ Error loading script: {e}"` (line 32). -/
def loadErrorMsg (m : String) : String := "❌ Error loading script: " ++ m

/-- The message `"❌ parser not found"` (line 39). -/
def parserNotFoundMsg : String := "❌ parser not found"

/-- Runs the target program (`runpy.run_path(path, run_name="__main__")`)
under the given state: the resulting state and the exception escaping the
module-level code, if any. When the program reaches a `parse_args()` call it
invokes whatever the attribute slot currently holds: the guard
`fake_parse_args` records the parser in the capture slot and raises
`StopIteration`; the original implementation would parse real arguments and
the module would continue to completion. -/
def runTarget (b : TargetBehavior) (s : LState) : LState × Option Exc :=
  match b with
  | TargetBehavior.completes => (s, none)
  | TargetBehavior.callsParseArgs p =>
    match s.attr with
    | ParseArgsAttr.fake => ({ s with captured := some p }, some Exc.stopIteration)
    | ParseArgsAttr.original => (s, none)
  | TargetBehavior.raisesStopIteration => (s, some Exc.stopIteration)
  | TargetBehavior.raisesError m => (s, some (Exc.error m))
  | TargetBehavior.exits c => (s, some (Exc.systemExit c))

/-- `load_parser_safely`: saves the current `parse_args` attribute, installs
the guard, runs the target, handles the `try/except` clauses (a pending exit
code records a `SystemExit` that will propagate after `finally`), performs
the `finally` restoration once on whichever path was taken, and finally
either propagates the exit or checks the capture slot, printing the
`parser not found` diagnostic when it is empty, and returns the slot's
content. -/
def load_parser_safely (s0 : LState) (b : TargetBehavior) : LState × LoadOutcome :=
  let original_parse_args := s0.attr
  let s1 : LState := { s0 with attr := ParseArgsAttr.fake }
  let r := runTarget b s1
  let handled : LState × Option Nat :=
    match r.2 with
    | none => (r.1, none)
    | some Exc.stopIteration => (r.1, none)
    | some (Exc.error m) =>
      ({ r.1 with printed := r.1.printed ++ [loadErrorMsg m] }, some 1)
    | some (Exc.systemExit c) => (r.1, some c)
  let s2 : LState := { handled.1 with attr := original_parse_args }
  match handled.2 with
  | some c => (s2, LoadOutcome.exitsProcess c)
  | none =>
    if s2.captured.isNone then
      ({ s2 with printed := s2.printed ++ [parserNotFoundMsg] },
       LoadOutcome.returns s2.captured)
    else (s2, LoadOutcome.returns s2.captured)

/-- The process state at interpreter start: the real `parse_args` bound
function is installed and `captured_parser = None`. -/
def initLState : LState :=
  { attr := ParseArgsAttr.original, captured := none, printed := [] }

/-! ## Entry point (`main`, lines 257-274) -/

/-- An observable step of a `main` run, in order: the target program's
module-level code was executed, a message was printed, an output file was
written, the process exited with a code, or an unhandled error escaped
(the generators dereferencing an absent parser). -/
inductive Event where
  | targetExecuted : Event
  | printedMsg : String → Event
  | wroteFile : String → String → Event
  | exited : Nat → Event
  | crashedUnhandled : Event

/-- The usage message (line 259). -/
def usageMsg : String := "Usage: generate_completion.py <path_to_cli> <bash|zsh>"

/-- The invalid-shell message (line 273). -/
def shellErrMsg : String :=
  "Error: shell must be " ++ sq ++ "bash" ++ sq ++ " or " ++ sq ++ "zsh" ++ sq

/-- `main`: checks the argument count, loads the target (executing its
module-level code), derives the program name from the path, and only then
dispatches on the shell argument, writing the completion file or printing
the shell error and exiting 1. Calling a generator with an absent parser
is an unhandled `AttributeError` (`crashedUnhandled`). -/
def mainRun (argv : List String) (b : TargetBehavior) : List Event :=
  if argv.length ≠ 3 then [Event.printedMsg usageMsg, Event.exited 1]
  else
    let path := argv.getD 1 ""
    let shell := argv.getD 2 ""
    let res := load_parser_safely initLState b
    let pre := Event.targetExecuted :: res.1.printed.map Event.printedMsg
    match res.2 with
    | LoadOutcome.exitsProcess c => pre ++ [Event.exited c]
    | LoadOutcome.returns po =>
      let prog := pyReplace (pyBasename path) ".py" ""
      if shell = "bash" then
        match po with
        | some p =>
          pre ++ [Event.wroteFile (prog ++ "_completion.bash")
            (generate_bash_completion p prog none 0)]
        | none => pre ++ [Event.crashedUnhandled]
      else if shell = "zsh" then
        match po with
        | some p =>
          pre ++ [Event.wroteFile ("_" ++ prog)
            (generate_zsh_completion p (some prog) 0)]
        | none => pre ++ [Event.crashedUnhandled]
      else pre ++ [Event.printedMsg shellErrMsg, Event.exited 1]

/-! ## Concrete example definitions -/

/-- The `--verbose` flag option (`store_true`) of the end-to-end example. -/
def verboseAction : ArgAction :=
  { option_strings := ["--verbose"], nargs := NargsV.num 0, const := ConstV.boolV true,
    choices := none, metavar := none, dest := "verbose", help := none }

/-- The `--output` value option (plain `store`) of the end-to-end example. -/
def outputAction : ArgAction :=
  { option_strings := ["--output"], nargs := NargsV.noneV, const := ConstV.noneV,
    choices := none, metavar := none, dest := "output", help := none }

/-- The positional `target` with allowed values `{debug, release}`. -/
def targetAction : ArgAction :=
  { option_strings := [], nargs := NargsV.noneV, const := ConstV.noneV,
    choices := some ["debug", "release"], metavar := none, dest := "target", help := none }

/-- The `build` subcommand's parser: one positional `target`. -/
def buildDef : Parser :=
  Parser.mk "tool build"
    (PActions.cons (PAction.arg targetAction) PActions.nil) []

/-- The end-to-end example definition named `tool`: flag `--verbose`, value
option `--output`, and a subcommand `build`. (The definition as given by the
spec's data model; argparse's implicitly added help action is not part
of the model.) -/
def toolDef : Parser :=
  Parser.mk "tool"
    (PActions.cons (PAction.arg verboseAction)
      (PActions.cons (PAction.arg outputAction)
        (PActions.cons
          (PAction.subparsers
            (SubChoices.cons "build" buildDef SubChoices.nil)
            [{ dest := "build", help := some "Build the project" }])
          PActions.nil))) []

/-- Does `nee` occur as a contiguous substring of `hay` (on character lists)? -/
def charsContain (hay nee : List Char) : Bool :=
  match hay with
  | [] => nee.isEmpty
  | _ :: rest => (stripPrefixChars nee hay).isSome || charsContain rest nee

/-- Does `nee` occur as a contiguous substring of `hay`? -/
def strContainsSub (hay nee : String) : Bool := charsContain hay.data nee.data

/-- A leaf parser that declares the value option `--output` before the flag
option `--verbose` (so the interleaved declaration order is
`--output, --verbose`). -/
def orderDef : Parser :=
  Parser.mk "p4"
    (PActions.cons (PAction.arg outputAction)
      (PActions.cons (PAction.arg verboseAction) PActions.nil)) []

/-- Innermost parser of the two-level nesting example: a leaf. -/
def subbDef : Parser := Parser.mk "p a b" PActions.nil []

/-- Middle parser of the two-level nesting example: has the subcommand `b`.
Its completion function is generated at level 1. -/
def subaDef : Parser :=
  Parser.mk "p a"
    (PActions.cons
      (PAction.subparsers (SubChoices.cons "b" subbDef SubChoices.nil)
        [{ dest := "b", help := none }])
      PActions.nil) []

/-- Root parser of the two-level nesting example: subcommand `a`, which in
turn has subcommand `b`. -/
def nestedDef : Parser :=
  Parser.mk "p"
    (PActions.cons
      (PAction.subparsers (SubChoices.cons "a" subaDef SubChoices.nil)
        [{ dest := "a", help := none }])
      PActions.nil) []

/-- A `--json` flag, member of a mutually exclusive group. -/
def jsonAction : ArgAction :=
  { option_strings := ["--json"], nargs := NargsV.num 0, const := ConstV.boolV true,
    choices := none, metavar := none, dest := "json", help := some "json output" }

/-- A `--yaml` flag, member of the same mutually exclusive group. -/
def yamlAction : ArgAction :=
  { option_strings := ["--yaml"], nargs := NargsV.num 0, const := ConstV.boolV true,
    choices := none, metavar := none, dest := "yaml", help := some "yaml output" }

/-- A parser with one mutually exclusive group `{--json, --yaml}` (as in
argparse, the group members also appear in `_actions`). -/
def mutexDef : Parser :=
  Parser.mk "pm"
    (PActions.cons (PAction.arg jsonAction)
      (PActions.cons (PAction.arg yamlAction) PActions.nil))
    [[jsonAction, yamlAction]]

/-! ## Helper lemmas -/

/-- If the first `_SubParsersAction` scan succeeds, `bashScan` returns its
choices together with the generated nested function lines. -/
theorem bashScan_eq_some (prog F : String) (level : Nat) :
    ∀ (acts : PActions) (cs : SubChoices) (infos : List ChoiceInfo),
      firstSubChoices acts = some (cs, infos) →
      bashScan acts prog F level = some (cs, bashSubFuncLines cs prog F level)
  | PActions.nil, _, _, h => by simp [firstSubChoices] at h
  | PActions.cons (PAction.arg aa) rest, cs, infos, h => by
    have ih := bashScan_eq_some prog F level rest cs infos
      (by simpa [firstSubChoices] using h)
    simpa [bashScan, firstSubChoices] using ih
  | PActions.cons (PAction.subparsers cs2 infos2) rest, cs, infos, h => by
    simp [firstSubChoices] at h
    simp [bashScan, h.1]

/-- If the actions list has no `_SubParsersAction`, `bashScan` finds nothing. -/
theorem bashScan_eq_none (prog F : String) (level : Nat) :
    ∀ (acts : PActions), firstSubChoices acts = none →
      bashScan acts prog F level = none
  | PActions.nil, _ => by simp [bashScan]
  | PActions.cons (PAction.arg aa) rest, h => by
    have ih := bashScan_eq_none prog F level rest (by simpa [firstSubChoices] using h)
    simpa [bashScan] using ih
  | PActions.cons (PAction.subparsers cs2 infos2) rest, h => by
    simp [firstSubChoices] at h

/-- Every subcommand name yields its two dispatch lines among the emitted
`case` branches. -/
theorem mem_bashCaseBranches (ind F : String) :
    ∀ (cs : SubChoices) (n : String), n ∈ subNamesList cs →
      (ind ++ n ++ ")") ∈ bashCaseBranches cs ind F ∧
      (ind ++ F ++ "_" ++ n) ∈ bashCaseBranches cs ind F
  | SubChoices.nil, n, h => by simp [subNamesList] at h
  | SubChoices.cons m q rest, n, h => by
    rcases (by simpa [subNamesList] using h : n = m ∨ n ∈ subNamesList rest) with h1 | h1
    · subst h1
      exact ⟨by simp [bashCaseBranches], by simp [bashCaseBranches]⟩
    · have ih := mem_bashCaseBranches ind F rest n h1
      exact ⟨by simp [bashCaseBranches, ih.1], by simp [bashCaseBranches, ih.2]⟩

/-- The flag-then-store candidate pool is a permutation (count-wise) of the
declared option spellings: each action's spellings go entirely to exactly one
of the two pools. -/
theorem count_flag_store (s : String) :
    ∀ (acts : PActions),
      (optionsFlag acts ++ optionsStore acts).count s = (declaredOptionStrings acts).count s
  | PActions.nil => by simp [optionsFlag, optionsStore, declaredOptionStrings]
  | PActions.cons (PAction.arg a) rest => by
    have ih := count_flag_store s rest
    rw [List.count_append] at ih
    by_cases h1 : a.option_strings = [] <;> by_cases hf : isFlagAction a <;>
      simp [optionsFlag, optionsStore, declaredOptionStrings, List.count_append, h1, hf] <;>
      omega
  | PActions.cons (PAction.subparsers cs infos) rest => by
    have ih := count_flag_store s rest
    simpa [optionsFlag, optionsStore, declaredOptionStrings, List.count_append] using ih

/-- `modifyLast` over an append only touches the right part when it is
nonempty. -/
theorem modifyLast_append (f : String → String) (l1 l2 : List String) (h : l2 ≠ []) :
    modifyLast f (l1 ++ l2) = l1 ++ modifyLast f l2 := by
  induction l1 with
  | nil => rfl
  | cons x xs ih =>
    cases hxa : xs ++ l2 with
    | nil => exact absurd (List.append_eq_nil.mp hxa).2 h
    | cons y ys =>
      calc modifyLast f ((x :: xs) ++ l2) = modifyLast f (x :: (xs ++ l2)) := by simp
        _ = x :: modifyLast f (xs ++ l2) := by rw [hxa]; rfl
        _ = x :: (xs ++ modifyLast f l2) := by rw [ih]
        _ = (x :: xs) ++ modifyLast f l2 := by simp

/-- Prepending nested-function blocks never removes existing lines. -/
theorem mem_foldl_prepend (y : String) :
    ∀ (scs : List StateCase) (init : List String), y ∈ init →
      y ∈ List.foldl (fun acc c => c.funcLines ++ acc) init scs
  | [], _, h => h
  | c :: rest, init, h =>
    mem_foldl_prepend y rest (c.funcLines ++ init) (List.mem_append_right _ h)

/-- Any clause appears, indented and backslash-continued, in the core of the
zsh function (the trailing ` \` is only stripped from the final catch-all
clause, which follows every element of `clauses`). -/
theorem mem_zshCore (prog x : String) (clauses : List String) (scs : List StateCase)
    (hx : x ∈ clauses) :
    ("    " ++ x ++ " \\") ∈ zshCore prog clauses scs := by
  unfold zshCore
  have e1 : ("\n_" ++ prog ++ "() \x7b") :: "  _arguments -C \\" ::
        ((clauses ++ [sq ++ "*:: :->args" ++ sq]).map (fun l => "    " ++ l ++ " \\"))
      = (("\n_" ++ prog ++ "() \x7b") :: "  _arguments -C \\" ::
          clauses.map (fun l => "    " ++ l ++ " \\"))
        ++ [("    " ++ (sq ++ "*:: :->args" ++ sq) ++ " \\")] := by
    simp
  rw [e1, modifyLast_append _ _ _ (by simp)]
  have h1 : ("    " ++ x ++ " \\")
      ∈ ("\n_" ++ prog ++ "() \x7b") :: "  _arguments -C \\" ::
          clauses.map (fun l => "    " ++ l ++ " \\") :=
    List.mem_cons_of_mem _ (List.mem_cons_of_mem _ (List.mem_map_of_mem _ hx))
  exact List.mem_append_left _ (List.mem_append_left _
    (List.mem_append_left _ (List.mem_append_left _ h1)))

/-- Any line of the core survives into the assembled function: nested
function blocks are prepended and the level-0 wrapper adds a header line and
a footer line. -/
theorem mem_zshAssemble (prog y : String) (level : Nat)
    (mutexLines : List String) (loop : List String × List StateCase)
    (hy : y ∈ zshCore prog (mutexLines ++ loop.1) loop.2) :
    y ∈ zshAssemble prog level mutexLines loop := by
  unfold zshAssemble
  have h4 := mem_foldl_prepend y loop.2 _ hy
  by_cases hl : level = 0
  · simp only [hl, if_pos rfl]
    exact List.mem_append_left _ (List.mem_cons_of_mem _ h4)
  · simpa [hl] using h4

/-- A mutex-group member with option spellings produces its clause among the
group's clauses. -/
theorem mem_zshGroupClauses (g : List ArgAction) (a : ArgAction)
    (ha : a ∈ g) (hopts : a.option_strings ≠ []) :
    zshMutexClause g a ∈ zshGroupClauses g := by
  have hne : ¬ (groupOpts g).isEmpty := by
    obtain ⟨x, hx⟩ := List.exists_mem_of_ne_nil _ hopts
    have : x ∈ groupOpts g :=
      List.mem_flatten.mpr ⟨a.option_strings, List.mem_map_of_mem _ ha, hx⟩
    simpa [List.isEmpty_iff] using List.ne_nil_of_mem this
  unfold zshGroupClauses
  rw [if_neg hne]
  exact List.mem_filterMap.mpr ⟨a, ha, by simp [List.isEmpty_iff, hopts]⟩

/-- A clause of one declared group appears among the clauses of all groups. -/
theorem mem_zshMutexClauses (gs : List (List ArgAction)) (g : List ArgAction)
    (x : String) (hg : g ∈ gs) (hx : x ∈ zshGroupClauses g) :
    x ∈ zshMutexClauses gs :=
  List.mem_flatten.mpr ⟨zshGroupClauses g, List.mem_map_of_mem _ hg, hx⟩

/-- Unfolding of `bashLines` through the parser's fields. -/
theorem bashLines_eq (p : Parser) (prog : String) (fn : Option String) (level : Nat) :
    bashLines p prog fn level
      = bashAssemble prog (fn.getD ("_" ++ pyReplace prog "-" "_")) level
          (optionsFlag p.actions) (optionsStore p.actions)
          (bashScan p.actions prog (fn.getD ("_" ++ pyReplace prog "-" "_")) level) := by
  cases p
  rfl

/-- Unfolding of `zshLines` through the parser's fields. -/
theorem zshLines_eq (p : Parser) (progName : Option String) (level : Nat) :
    zshLines p progName level
      = zshAssemble (progName.getD p.progName) level (zshMutexClauses p.mutexGroups)
          (zshActionLoop p.actions (zshExclusiveOpts p.mutexGroups)
            (progName.getD p.progName) level 1) := by
  cases p
  rfl

/-! ## Claims -/

/-- C1: for every call to `load_parser_safely`, the interception of
`argparse.ArgumentParser.parse_args` is removed on every exit path — normal
completion, the guard's `StopIteration` signal, any other exception
(including the loader's own `sys.exit(1)` load-error path), and a
propagating `SystemExit` — so after the call the attribute slot equals its
value before the call. -/
theorem c1_parse_args_restored_on_every_exit (s0 : LState) (b : TargetBehavior) :
    ((load_parser_safely s0 b).1).attr = s0.attr := by
  cases b <;> cases hc : s0.captured <;> simp [load_parser_safely, runTarget, hc]

/-- C6 counterexample: a target program that exits (raises `SystemExit`)
without ever invoking `parse_args` does not produce the `parser not found`
diagnostic and the call does not return — the `SystemExit` propagates
(outcome `exitsProcess`), contradicting the claim's "(or exits) → prints the
diagnostic, does not abort, returns an absent definition". -/
theorem c6_counterexample :
    (load_parser_safely initLState (TargetBehavior.exits 0)).2
        = LoadOutcome.exitsProcess 0 ∧
    (load_parser_safely initLState (TargetBehavior.exits 0)).1.printed = [] :=
  ⟨rfl, rfl⟩

/-- C6 (amended): for every load whose target runs to completion normally
(not via a process exit) without ever invoking `parse_args`, and with no
parser captured earlier in the process, the loader prints the
`parser not found` diagnostic, does not abort, and returns an absent
definition. (A target that exits early instead propagates its `SystemExit`.) -/
theorem c6_capture_missing_diagnostic (s0 : LState) (h : s0.captured = none) :
    (load_parser_safely s0 TargetBehavior.completes).1.printed
        = s0.printed ++ [parserNotFoundMsg] ∧
    (load_parser_safely s0 TargetBehavior.completes).2 = LoadOutcome.returns none := by
  simp [load_parser_safely, runTarget, h]

/-- C6 witness: the amended claim at the initial process state. -/
theorem c6_witness :
    (load_parser_safely initLState TargetBehavior.completes).1.printed
        = initLState.printed ++ [parserNotFoundMsg] ∧
    (load_parser_safely initLState TargetBehavior.completes).2
        = LoadOutcome.returns none :=
  c6_capture_missing_diagnostic initLState rfl

/-- C7: a target whose module-level code raises an ordinary exception (an
`Exception` other than the guard's `StopIteration` signal) before the
capture point is reported with the underlying message and the process exits
with code 1; the guard's signal is caught silently (the call returns the
captured parser with nothing printed); and an escaping `SystemExit` is not
silently ignored either — it propagates and ends the process. -/
theorem c7_load_errors_reported (s0 : LState) (m : String) (p : Parser) (c : Nat) :
    (load_parser_safely s0 (TargetBehavior.raisesError m)).1.printed
        = s0.printed ++ [loadErrorMsg m] ∧
    (load_parser_safely s0 (TargetBehavior.raisesError m)).2
        = LoadOutcome.exitsProcess 1 ∧
    (load_parser_safely s0 (TargetBehavior.callsParseArgs p)).1.printed = s0.printed ∧
    (load_parser_safely s0 (TargetBehavior.callsParseArgs p)).2
        = LoadOutcome.returns (some p) ∧
    (load_parser_safely s0 (TargetBehavior.exits c)).2 = LoadOutcome.exitsProcess c :=
  ⟨rfl, rfl, rfl, rfl, rfl⟩

/-- C9: the module-level capture slot is sticky — once some earlier call has
captured a parser, a later call whose target never invokes `parse_args`
returns that stale parser and prints no diagnostic; no behaviour ever resets
the slot to empty; and whenever a call returns an absent parser, the
`parser not found` diagnostic was printed (the diagnostic fires exactly on
the never-captured runs that return). -/
theorem c9_stale_capture_slot (s0 : LState) (p : Parser) (h : s0.captured = some p) :
    (load_parser_safely s0 TargetBehavior.completes).2 = LoadOutcome.returns (some p) ∧
    (load_parser_safely s0 TargetBehavior.completes).1.printed = s0.printed ∧
    (∀ b, ((load_parser_safely s0 b).1).captured ≠ none) ∧
    (∀ (s1 : LState) (b1 : TargetBehavior),
      (load_parser_safely s1 b1).2 = LoadOutcome.returns none →
      (load_parser_safely s1 b1).1.printed = s1.printed ++ [parserNotFoundMsg]) := by
  refine ⟨by simp [load_parser_safely, runTarget, h],
    by simp [load_parser_safely, runTarget, h], ?_, ?_⟩
  · intro b
    cases b <;> simp [load_parser_safely, runTarget, h]
  · intro s1 b1 hr
    cases b1 <;> cases hc : s1.captured <;>
      simp_all [load_parser_safely, runTarget]

/-- The process state after some earlier load has captured the example
parser. -/
def staleState : LState :=
  { attr := ParseArgsAttr.original, captured := some toolDef, printed := [] }

/-- C9 witness: the claim at a state holding a previously captured parser. -/
theorem c9_witness :
    (load_parser_safely staleState TargetBehavior.completes).2
        = LoadOutcome.returns (some toolDef) ∧
    (load_parser_safely staleState TargetBehavior.completes).1.printed
        = staleState.printed ∧
    (∀ b, ((load_parser_safely staleState b).1).captured ≠ none) ∧
    (∀ (s1 : LState) (b1 : TargetBehavior),
      (load_parser_safely s1 b1).2 = LoadOutcome.returns none →
      (load_parser_safely s1 b1).1.printed = s1.printed ++ [parserNotFoundMsg]) :=
  c9_stale_capture_slot staleState toolDef rfl

/-- C10: with exactly two operand arguments, `main` loads (executes) the
target program before validating the shell argument: when the shell argument
is neither `bash` nor `zsh` and the load returns, the trace is exactly the
target execution, the loader's messages, the shell error, and exit code 1 —
and no output file is ever written. -/
theorem c10_load_before_shell_validation (a0 path shell : String) (b : TargetBehavior)
    (po : Option Parser) (hb : shell ≠ "bash") (hz : shell ≠ "zsh")
    (hr : (load_parser_safely initLState b).2 = LoadOutcome.returns po) :
    mainRun [a0, path, shell] b
      = Event.targetExecuted ::
          ((load_parser_safely initLState b).1.printed.map Event.printedMsg ++
            [Event.printedMsg shellErrMsg, Event.exited 1]) ∧
    ∀ (n c : String), Event.wroteFile n c ∉ mainRun [a0, path, shell] b := by
  have h1 : mainRun [a0, path, shell] b
      = Event.targetExecuted ::
          ((load_parser_safely initLState b).1.printed.map Event.printedMsg ++
            [Event.printedMsg shellErrMsg, Event.exited 1]) := by
    simp [mainRun, hr, hb, hz]
  refine ⟨h1, ?_⟩
  intro n c hmem
  rw [h1] at hmem
  simp at hmem

/-- C10 witness: an invalid shell argument `fish` with a target that
completes without capturing. -/
theorem c10_witness :
    mainRun ["argcompgen", "mytool", "fish"] TargetBehavior.completes
      = Event.targetExecuted ::
          ((load_parser_safely initLState TargetBehavior.completes).1.printed.map
              Event.printedMsg ++
            [Event.printedMsg shellErrMsg, Event.exited 1]) ∧
    ∀ (n c : String),
      Event.wroteFile n c ∉ mainRun ["argcompgen", "mytool", "fish"] TargetBehavior.completes :=
  c10_load_before_shell_validation "argcompgen" "mytool" "fish" TargetBehavior.completes
    none (by decide) (by decide) rfl

/-- C2 counterexample: in the two-level nesting example the function
generated at level 1 (for subcommand `a`, which itself has subcommands, as
the first conjunct records) dispatches on the token at position 1 — its
emitted `case` line is `case $\x7bCOMP_WORDS[1]\x7d in` with level-1 indent —
and no line dispatches on position `level+1 = 2`, contradicting the claim's
"position level+1 for a function generated at that level". -/
theorem c2_counterexample :
    firstSubChoices subaDef.actions
        = some (SubChoices.cons "b" subbDef SubChoices.nil, [{ dest := "b", help := none }]) ∧
    ("    case $\x7bCOMP_WORDS[1]\x7d in") ∈ bashLines nestedDef "p" none 0 ∧
    ("    case $\x7bCOMP_WORDS[2]\x7d in") ∉ bashLines nestedDef "p" none 0 :=
  ⟨rfl, by decide, by decide⟩

/-- C2 (amended): for every parser level with subcommands, the generated
function offers, when the cursor index equals `level+1`, exactly the union
of the subcommand names and the flag-style options and returns; otherwise it
dispatches by the literal token at position 1 (not `level+1`: the emitted
`case` scrutinee is always `$\x7bCOMP_WORDS[1]\x7d`) into a `case` statement
with one branch per subcommand name, each branch invoking the nested
function generated for that subcommand. -/
theorem c2_subcommand_level_layout (p : Parser) (prog : String) (fn : Option String)
    (level : Nat) (cs : SubChoices) (infos : List ChoiceInfo)
    (h : firstSubChoices p.actions = some (cs, infos)) :
    (indentStr level ++ "local subcmds=" ++ sq
        ++ String.intercalate " " (subNamesList cs) ++ sq) ∈ bashLines p prog fn level ∧
    (indentStr level ++ "if [ $COMP_CWORD -eq " ++ toString (level + 1) ++ " ]; then")
        ∈ bashLines p prog fn level ∧
    (indentStr level ++ "    COMPREPLY=( $(compgen -W \"$subcmds "
        ++ String.intercalate " " (optionsFlag p.actions) ++ "\" -- \"$cur\") )")
        ∈ bashLines p prog fn level ∧
    (indentStr level ++ "    return 0") ∈ bashLines p prog fn level ∧
    (indentStr level ++ "case $\x7bCOMP_WORDS[1]\x7d in") ∈ bashLines p prog fn level ∧
    ∀ n, n ∈ subNamesList cs →
      (indentStr level ++ n ++ ")") ∈ bashLines p prog fn level ∧
      (indentStr level ++ (fn.getD ("_" ++ pyReplace prog "-" "_")) ++ "_" ++ n)
          ∈ bashLines p prog fn level := by
  rw [bashLines_eq p prog fn level,
    bashScan_eq_some prog (fn.getD ("_" ++ pyReplace prog "-" "_")) level p.actions cs infos h]
  unfold bashAssemble
  refine ⟨by simp, by simp, by simp, by simp, by simp, ?_⟩
  intro n hn
  have hb := mem_bashCaseBranches (indentStr level)
    (fn.getD ("_" ++ pyReplace prog "-" "_")) cs n hn
  exact ⟨by simp [hb.1], by simp [hb.2]⟩

/-- C2 witness: the amended claim at the two-level nesting example's root. -/
theorem c2_witness :
    (indentStr 0 ++ "local subcmds=" ++ sq
        ++ String.intercalate " "
            (subNamesList (SubChoices.cons "a" subaDef SubChoices.nil)) ++ sq)
        ∈ bashLines nestedDef "p" none 0 ∧
    (indentStr 0 ++ "if [ $COMP_CWORD -eq " ++ toString (0 + 1) ++ " ]; then")
        ∈ bashLines nestedDef "p" none 0 ∧
    (indentStr 0 ++ "    COMPREPLY=( $(compgen -W \"$subcmds "
        ++ String.intercalate " " (optionsFlag nestedDef.actions) ++ "\" -- \"$cur\") )")
        ∈ bashLines nestedDef "p" none 0 ∧
    (indentStr 0 ++ "    return 0") ∈ bashLines nestedDef "p" none 0 ∧
    (indentStr 0 ++ "case $\x7bCOMP_WORDS[1]\x7d in") ∈ bashLines nestedDef "p" none 0 ∧
    ∀ n, n ∈ subNamesList (SubChoices.cons "a" subaDef SubChoices.nil) →
      (indentStr 0 ++ n ++ ")") ∈ bashLines nestedDef "p" none 0 ∧
      (indentStr 0 ++ ((none : Option String).getD ("_" ++ pyReplace "p" "-" "_")) ++ "_" ++ n)
          ∈ bashLines nestedDef "p" none 0 :=
  c2_subcommand_level_layout nestedDef "p" none 0
    (SubChoices.cons "a" subaDef SubChoices.nil) [{ dest := "a", help := none }] rfl

/-- C3 counterexample: the bash generator never consults a positional's
allowed values — in the whole bash output for the `tool` example the string
`debug` never occurs, and the `_tool_build` leaf candidate pool does not
contain `debug`; the claim's "`tool_build` ... emitted candidate set is
constrained to `\x7bdebug release\x7d`" is false. -/
theorem c3_counterexample :
    "debug" ∉ bashLeafWords buildDef ∧
    (bashLines toolDef "tool" none 0).all (fun l => !(strContainsSub l "debug")) = true :=
  ⟨by decide, by decide⟩

/-- C3 (amended): for the `tool` example, the bash root function's
position-1 candidate word list is exactly `build --verbose`, and the nested
function `_tool_build` (named `<rootFunctionName>_build`) is emitted, but
its candidate pool contains only option spellings (here none — the bash
generator ignores positional allowed values); the zsh output has the
`#compdef tool` header, a `subcmd` state clause and an `args` state clause,
plus a nested `_tool_build` function whose positional clause lists exactly
`(debug release)`. -/
theorem c3_end_to_end_example :
    ("local subcmds=" ++ sq ++ "build" ++ sq) ∈ bashLines toolDef "tool" none 0 ∧
    ("    COMPREPLY=( $(compgen -W \"$subcmds --verbose\" -- \"$cur\") )")
        ∈ bashLines toolDef "tool" none 0 ∧
    bashSubcmdOfferWords toolDef = ["build", "--verbose"] ∧
    ("_tool_build() \x7b") ∈ bashLines toolDef "tool" none 0 ∧
    bashLeafWords buildDef = [] ∧
    ("#compdef tool") ∈ zshLines toolDef (some "tool") 0 ∧
    ("    " ++ sq ++ "1: :->subcmd" ++ sq ++ " \\") ∈ zshLines toolDef (some "tool") 0 ∧
    ("    " ++ sq ++ "*:: :->args" ++ sq) ∈ zshLines toolDef (some "tool") 0 ∧
    ("\n_tool_build() \x7b") ∈ zshLines toolDef (some "tool") 0 ∧
    ("    " ++ sq ++ "1:target:(debug release)" ++ sq ++ " \\")
        ∈ zshLines toolDef (some "tool") 0 := by
  refine ⟨by decide, by decide, by decide, by decide, by decide,
    by decide, by decide, by decide, by decide, by decide⟩

/-- C4 counterexample: a leaf that declares the value option `--output`
before the flag option `--verbose` — the emitted candidate pool is
`--verbose --output` (flags first), which is not the declared insertion
order `--output --verbose`, contradicting the claim's "the spellings appear
in the definition's declared insertion order". -/
theorem c4_counterexample :
    bashLeafWords orderDef = ["--verbose", "--output"] ∧
    declaredOptionStrings orderDef.actions = ["--output", "--verbose"] ∧
    bashLeafWords orderDef ≠ declaredOptionStrings orderDef.actions :=
  ⟨by decide, by decide, by decide⟩

/-- C4 (amended): for every leaf level, the emitted candidate pool is the
flag-style spellings in declaration order followed by the value-style
spellings in declaration order — a deterministic function of insertion
order, spelling-for-spelling a permutation of the declared option list
(hence each spelling declared once occurs exactly once), but not the
interleaved declaration order. Both `opts_flag` and `opts_store` lines are
emitted with their pools in declaration order. -/
theorem c4_leaf_candidate_pool (p : Parser) (prog : String) (fn : Option String)
    (level : Nat) (h : firstSubChoices p.actions = none) :
    (indentStr level ++ "local opts_flag=\""
        ++ String.intercalate " " (optionsFlag p.actions) ++ "\"")
        ∈ bashLines p prog fn level ∧
    (indentStr level ++ "local opts_store=\""
        ++ String.intercalate " " (optionsStore p.actions) ++ "\"")
        ∈ bashLines p prog fn level ∧
    bashLeafWords p = optionsFlag p.actions ++ optionsStore p.actions ∧
    ∀ s : String, (bashLeafWords p).count s = (declaredOptionStrings p.actions).count s := by
  rw [bashLines_eq p prog fn level,
    bashScan_eq_none prog (fn.getD ("_" ++ pyReplace prog "-" "_")) level p.actions h]
  unfold bashAssemble
  exact ⟨by simp, by simp, rfl, fun s => count_flag_store s p.actions⟩

/-- C4 witness: the amended claim at the out-of-order leaf example. -/
theorem c4_witness :
    (indentStr 0 ++ "local opts_flag=\""
        ++ String.intercalate " " (optionsFlag orderDef.actions) ++ "\"")
        ∈ bashLines orderDef "p4" none 0 ∧
    (indentStr 0 ++ "local opts_store=\""
        ++ String.intercalate " " (optionsStore orderDef.actions) ++ "\"")
        ∈ bashLines orderDef "p4" none 0 ∧
    bashLeafWords orderDef = optionsFlag orderDef.actions ++ optionsStore orderDef.actions ∧
    ∀ s : String,
      (bashLeafWords orderDef).count s = (declaredOptionStrings orderDef.actions).count s :=
  c4_leaf_candidate_pool orderDef "p4" none 0 rfl

/-- C5: for every definition with mutually exclusive groups, every member
option of each declared group is emitted in the zsh output with an
exclusivity marker `(...)` listing every option spelling of every member of
that group (`groupOpts g` collects all members' spellings, its own
included). -/
theorem c5_mutex_marker_lists_all (p : Parser) (progName : Option String) (level : Nat)
    (g : List ArgAction) (a : ArgAction)
    (hg : g ∈ p.mutexGroups) (ha : a ∈ g) (hopts : a.option_strings ≠ []) :
    ("    " ++ (sq ++ "(" ++ String.intercalate " " (groupOpts g) ++ ")" ++ sq
        ++ optsRepr a.option_strings ++ sq ++ "[" ++ helpOr a.help ++ "]" ++ sq) ++ " \\")
      ∈ zshLines p progName level := by
  have hx : zshMutexClause g a ∈ zshMutexClauses p.mutexGroups :=
    mem_zshMutexClauses _ g _ hg (mem_zshGroupClauses g a ha hopts)
  rw [zshLines_eq]
  exact mem_zshAssemble _ _ _ _ _ (mem_zshCore _ _ _ _ (List.mem_append_left _ hx))

/-- C5 witness: the `--json` member of the `\x7b--json, --yaml\x7d` group. -/
theorem c5_witness :
    ("    " ++ (sq ++ "(" ++ String.intercalate " " (groupOpts [jsonAction, yamlAction])
        ++ ")" ++ sq ++ optsRepr jsonAction.option_strings ++ sq ++ "["
        ++ helpOr jsonAction.help ++ "]" ++ sq) ++ " \\")
      ∈ zshLines mutexDef none 0 :=
  c5_mutex_marker_lists_all mutexDef none 0 [jsonAction, yamlAction] jsonAction
    (by decide) (by decide) (by decide)

/-- C8: both generators are deterministic functions of the definition and
program name — two runs on equal inputs produce byte-identical text. (In
this embedding every iteration the source performs is over insertion-ordered
structures — `_actions`, dict `choices`, group lists — and the only Python
`set`, `exclusive_opts`, is consulted solely through membership tests, so
the generators are total functions of the definition.) -/
theorem c8_deterministic_generation (p q : Parser) (prog : String) (fn : Option String)
    (level : Nat) (h : p = q) :
    generate_bash_completion p prog fn level = generate_bash_completion q prog fn level ∧
    generate_zsh_completion p (some prog) level = generate_zsh_completion q (some prog) level := by
  subst h
  exact ⟨rfl, rfl⟩

/-- C8 witness: determinism at the `tool` example. -/
theorem c8_witness :
    generate_bash_completion toolDef "tool" none 0
        = generate_bash_completion toolDef "tool" none 0 ∧
    generate_zsh_completion toolDef (some "tool") 0
        = generate_zsh_completion toolDef (some "tool") 0 :=
  c8_deterministic_generation toolDef toolDef "tool" none 0 rfl

end Argcompgen
